import Mathlib

/-!
Verification of the BinanceTraderV2 trading engine (`app/utils.py`) against its
natural-language specification.

The embedding models Python `Decimal` values as exact rationals; a `Decimal`
with a fixed number of fractional digits (tick sizes, step sizes, quantized
prices) is modelled by `Dec`, a pair of an integer mantissa and a count of
fractional digits, so that claims about the printed representation (number of
fractional digits) are statable.  Python `Decimal` floor-division `//`
truncates the exact quotient toward zero; `truncQ` models that.  Exchange
gateway calls are modelled as an explicit trace, with an environment record
supplying the responses the gateway would return.
-/

namespace BinanceTraderV2

/-- A Python `Decimal` with a non-positive exponent: the value `man / 10^fd`,
carrying `fd` fractional digits.  `Decimal("0.10")` is `⟨10, 2⟩`,
`Decimal("0.001")` is `⟨1, 3⟩`. -/
structure Dec where
  man : Int
  fd : Nat
deriving DecidableEq, Repr

/-- The rational value of a `Dec`. -/
def Dec.val (d : Dec) : ℚ := (d.man : ℚ) / (10 : ℚ) ^ d.fd

/-- Truncation of a rational toward zero, the rounding used by Python
`Decimal.__floordiv__` (on the exact quotient) and by `ROUND_DOWN`. -/
def truncQ (x : ℚ) : Int := if 0 ≤ x then Int.floor x else -(Int.floor (-x))

/-- `BinanceHelper.adjust_to_step(value, step_size)` (utils.py lines 75-82):
`(value // step_size) * step_size`, re-expressed with exactly as many
fractional digits as the step via `.quantize(1e-precision, ROUND_DOWN)`.
Since `(value // step) * step` already carries exactly `step.fd` fractional
digits, the final `quantize` is exact and only fixes the representation. -/
def adjust_to_step (value : ℚ) (step : Dec) : Dec :=
  ⟨truncQ (value / step.val) * step.man, step.fd⟩

/-- `Decimal.quantize(tick, ROUND_DOWN)` applied to a value `x`: round toward
zero to `fd` fractional digits (the tick's exponent). -/
def quantizeDown (x : ℚ) (fd : Nat) : Dec := ⟨truncQ (x * 10 ^ fd), fd⟩

/-- Round-half-to-even of a rational to an integer, the rounding Python's
fixed-point formatting of a `Decimal` applies. -/
def roundHalfEven (x : ℚ) : Int :=
  let f := Int.floor x
  let r := x - f
  if r < 1/2 then f else if 1/2 < r then f + 1 else if f % 2 = 0 then f else f + 1

/-- `BinanceHelper.format_val(value, precision)` (utils.py lines 84-88):
render with exactly `precision` fractional digits (f-string fixed-point
formatting of a `Decimal`, which rounds half-to-even). -/
def format_val (x : ℚ) (precision : Nat) : Dec :=
  ⟨roundHalfEven (x * 10 ^ precision), precision⟩

section TruncLemmas

lemma truncQ_of_nonneg {x : ℚ} (h : 0 ≤ x) : truncQ x = Int.floor x := by
  simp [truncQ, h]

lemma truncQ_zero : truncQ 0 = 0 := by simp [truncQ]

lemma truncQ_le {x : ℚ} (h : 0 ≤ x) : (truncQ x : ℚ) ≤ x := by
  rw [truncQ_of_nonneg h]
  exact Int.floor_le x

lemma lt_truncQ_add_one {x : ℚ} (h : 0 ≤ x) : x < truncQ x + 1 := by
  rw [truncQ_of_nonneg h]
  exact Int.lt_floor_add_one x

lemma truncQ_intCast (k : Int) : truncQ (k : ℚ) = k := by
  rcases le_or_lt 0 (k : ℚ) with h | h
  · rw [truncQ_of_nonneg h, Int.floor_intCast]
  · have : ¬ (0 : ℚ) ≤ (k : ℚ) := not_le.mpr h
    rw [truncQ, if_neg this]
    rw [show (-(k : ℚ)) = ((-k : Int) : ℚ) by push_cast; ring, Int.floor_intCast]
    ring

lemma roundHalfEven_intCast (k : Int) : roundHalfEven (k : ℚ) = k := by
  have hf : Int.floor ((k : ℚ)) = k := Int.floor_intCast k
  simp only [roundHalfEven, hf]
  norm_num

/-- `format_val` is exact on a value already carrying at most `p` fractional
digits. -/
lemma format_val_exact (d : Dec) (p : Nat) (h : d.fd ≤ p) :
    format_val d.val p = ⟨d.man * 10 ^ (p - d.fd), p⟩ ∧ (format_val d.val p).val = d.val := by
  have hpow : ((10 : ℚ) ^ d.fd) ≠ 0 := by positivity
  have hx : d.val * 10 ^ p = ((d.man * 10 ^ (p - d.fd) : Int) : ℚ) := by
    rw [Dec.val]
    push_cast
    rw [show (10 : ℚ) ^ p = 10 ^ d.fd * 10 ^ (p - d.fd) by
      rw [← pow_add]; congr 1; omega]
    field_simp
    ring
  constructor
  · rw [format_val, hx, roundHalfEven_intCast]
  · rw [format_val, hx, roundHalfEven_intCast, Dec.val, Dec.val]
    push_cast
    rw [show (10 : ℚ) ^ p = 10 ^ (p - d.fd) * 10 ^ d.fd by
      rw [← pow_add]; congr 1; omega]
    field_simp
    ring

lemma Dec.val_mk_mul (q : Int) (s : Dec) :
    (Dec.mk (q * s.man) s.fd).val = (q : ℚ) * s.val := by
  simp only [Dec.val]
  push_cast
  ring

end TruncLemmas

section AdjustToStep

variable {value : ℚ} {step : Dec}

lemma Dec.val_pos (h : 0 < step.man) : 0 < step.val := by
  rw [Dec.val]
  positivity

lemma adjust_to_step_fd : (adjust_to_step value step).fd = step.fd := rfl

lemma adjust_to_step_val :
    (adjust_to_step value step).val = (truncQ (value / step.val) : ℚ) * step.val :=
  Dec.val_mk_mul _ _

lemma adjust_to_step_le (hv : 0 ≤ value) (hs : 0 < step.man) :
    (adjust_to_step value step).val ≤ value := by
  have hsv := Dec.val_pos hs
  rw [adjust_to_step_val]
  have hq : 0 ≤ value / step.val := div_nonneg hv hsv.le
  have := truncQ_le hq
  calc (truncQ (value / step.val) : ℚ) * step.val
      ≤ (value / step.val) * step.val := by
        exact mul_le_mul_of_nonneg_right this hsv.le
    _ = value := div_mul_cancel₀ value hsv.ne'

lemma adjust_to_step_gap (hv : 0 ≤ value) (hs : 0 < step.man) :
    value - (adjust_to_step value step).val < step.val := by
  have hsv := Dec.val_pos hs
  rw [adjust_to_step_val]
  have hq : 0 ≤ value / step.val := div_nonneg hv hsv.le
  have h1 := lt_truncQ_add_one hq
  have h2 : value < (truncQ (value / step.val) + 1 : ℚ) * step.val := by
    calc value = (value / step.val) * step.val := (div_mul_cancel₀ value hsv.ne').symm
      _ < (truncQ (value / step.val) + 1 : ℚ) * step.val := by
          exact mul_lt_mul_of_pos_right h1 hsv
  nlinarith [h2]

lemma adjust_to_step_zero (step : Dec) : (adjust_to_step 0 step).val = 0 := by
  rw [adjust_to_step_val]
  have : (0 : ℚ) / step.val = 0 := zero_div _
  rw [this, truncQ_zero]
  norm_num

end AdjustToStep

/-- Order side, `payload["strategy"]["order_action"].upper()`. -/
inductive Side
  | BUY
  | SELL
deriving DecidableEq, Repr

/-- The opposing side, used when placing protective orders. -/
def Side.flip : Side → Side
  | .BUY => .SELL
  | .SELL => .BUY

/-- Futures order types used by the engine. -/
inductive OrderType
  | limit
  | market
  | takeProfitMarket
  | stopMarket
  | trailingStopMarket
deriving DecidableEq, Repr

/-- Take-profit trigger price (utils.py lines 564-588): for a BUY entry,
`(filled_price * (1 + tp_pct)).quantize(tick_size, ROUND_DOWN)`; for a SELL
entry the sign inverts.  `tp_pct` is `take_profit_percent / 100` (line 429). -/
def tp_price (action : Side) (filled_price tp_pct : ℚ) (tick : Dec) : Dec :=
  match action with
  | .BUY => quantizeDown (filled_price * (1 + tp_pct)) tick.fd
  | .SELL => quantizeDown (filled_price * (1 - tp_pct)) tick.fd

/-- Stop-loss trigger price (utils.py lines 537-561): for a BUY entry,
`(filled_price * (1 - sl_pct)).quantize(tick_size, ROUND_DOWN)`; for a SELL
entry the sign inverts.  `sl_pct` is `stop_loss_percent / 100` (line 430). -/
def sl_price (action : Side) (filled_price sl_pct : ℚ) (tick : Dec) : Dec :=
  match action with
  | .BUY => quantizeDown (filled_price * (1 - sl_pct)) tick.fd
  | .SELL => quantizeDown (filled_price * (1 + sl_pct)) tick.fd

/-- Trailing-stop callback rate (utils.py lines 592-593):
`raw_callback = trail_pct * 100`, floored at `0.1`.  `trail_pct` is
`trailing_stop_percentage / 100` (line 431), so the raw callback equals the
requested percentage unchanged. -/
def callback_rate (trail_pct : ℚ) : ℚ :=
  let raw := trail_pct * 100
  if 1/10 ≤ raw then raw else 1/10

/-- One entry of `futures_account_trades`: the fields the engine reads. -/
structure Trade where
  commission : ℚ
  commissionAsset : String
deriving DecidableEq, Repr

/-- `BinanceHelper.fetch_order_commission` (utils.py lines 94-110): sum the
commissions over the order's trades and take the first non-empty commission
asset; on ANY exception from the trades endpoint, return `(Decimal("0"), "")`
instead of propagating. -/
def fetch_order_commission (resp : Except Unit (List Trade)) : ℚ × String :=
  match resp with
  | .error _ => (0, "")
  | .ok trades =>
    trades.foldl
      (fun acc t =>
        (acc.1 + t.commission, if acc.2 = "" then t.commissionAsset else acc.2))
      (0, "")

/-- One order from `futures_get_open_orders`: the fields the engine reads. -/
structure OpenOrder where
  orderId : Nat
  otype : OrderType
deriving DecidableEq, Repr

/-- The fields of a `futures_get_order` response the engine reads.  The source
computes the fill price as `info.get('avgPrice') or info.get('price')`;
`fillPrice` models that fallback. -/
structure FutOrderInfo where
  status : String
  avgPrice : Option ℚ
  price : ℚ
  executedQty : ℚ
deriving DecidableEq, Repr

/-- `Decimal(info.get('avgPrice') or info.get('price'))`. -/
def FutOrderInfo.fillPrice (i : FutOrderInfo) : ℚ := i.avgPrice.getD i.price

/-- One gateway request issued by the engine, in issue order. -/
inductive GCall
  | futuresChangeLeverage (lev : Int)
  | futuresAccount
  | futuresExchangeInfo
  | futuresCreateOrder (side : Side) (otype : OrderType) (qty : Option Dec)
      (price : Option Dec) (stopPrice : Option Dec) (callbackRate : Option ℚ)
      (reduceOnly : Bool) (closePosition : Bool)
  | futuresCancelOrder (oid : Nat)
  | futuresGetOrder (oid : Nat)
  | futuresGetOpenOrders
  | futuresPositionInformation
  | futuresAccountTrades (oid : Nat)
deriving DecidableEq, Repr

/-- Whether a gateway call submits an order. -/
def GCall.isCreateOrder : GCall → Bool
  | .futuresCreateOrder .. => true
  | _ => false

/-- Whether a gateway call submits a protective (TP/SL/TS) order. -/
def GCall.isProtectiveCreate : GCall → Bool
  | .futuresCreateOrder _ ot .. =>
    ot = OrderType.takeProfitMarket ∨ ot = OrderType.stopMarket ∨
      ot = OrderType.trailingStopMarket
  | _ => false

/-- The order types `cancel_related_orders` cancels (utils.py lines 231-235). -/
def protectiveTypes : List OrderType :=
  [.takeProfitMarket, .stopMarket, .trailingStopMarket]

/-- `BinanceHelper.cancel_related_orders` (utils.py lines 224-239): list the
open orders and cancel each one whose type is protective.  A
`BinanceAPIException` is caught and logged; the model lets the listing fail
(`openResp = .error`) and treats the individual cancel requests as issued. -/
def cancel_related_orders (openResp : Except Unit (List OpenOrder)) : List GCall :=
  match openResp with
  | .error _ => [GCall.futuresGetOpenOrders]
  | .ok orders =>
    GCall.futuresGetOpenOrders ::
      (orders.filter (fun o => o.otype ∈ protectiveTypes)).map
        (fun o => GCall.futuresCancelOrder o.orderId)

/-- One row written by `log_transaction` (utils.py lines 134-218).  The source
renders the note as the string `"Order {id}"` / `"Exit {id}"`; `noteOrderId`
carries the order id embedded in that note. -/
structure TxRecord where
  txType : String
  inn : ℚ
  innAsset : String
  ut : ℚ
  utAsset : String
  fee : ℚ
  feeAsset : String
  market : String
  noteOrderId : Nat
deriving DecidableEq, Repr

/-- `Config.MIN_NOTIONAL` (config.py): `5`. -/
def minNotional : ℚ := 5

/-- Gateway responses for one run of the futures entry handler:
`margin` is `futures_account()['availableBalance']`; `tick`, `step` and the
precisions come from `get_symbol_info`; `polls i` is the response to the
`i`-th `futures_get_order` on the entry limit order; `fallbackId` and
`fallbackInfo` answer the fallback market order's creation and status lookup;
`trades oid` answers `futures_account_trades` for `oid`; `openOrders` answers
`futures_get_open_orders`. -/
structure EnterEnv where
  margin : ℚ
  tick : Dec
  step : Dec
  pricePrecision : Nat
  quantityPrecision : Nat
  limitId : Nat
  polls : Nat → Except Unit FutOrderInfo
  fallbackId : Except Unit Nat
  fallbackInfo : Except Unit FutOrderInfo
  trades : Nat → Except Unit (List Trade)
  openOrders : Except Unit (List OpenOrder)

/-- The statuses on which the entry poll loop aborts (utils.py line 481). -/
def terminalAbort (s : String) : Bool :=
  s = "CANCELED" ∨ s = "REJECTED" ∨ s = "EXPIRED"

/-- Outcome of the bounded entry poll loop, with the number of
`futures_get_order` polls issued. -/
inductive PollOutcome
  | filled (info : FutOrderInfo) (consumed : Nat)
  | abortedStatus (s : String) (consumed : Nat)
  | abortedError (consumed : Nat)
  | timeout
deriving DecidableEq, Repr

/-- The entry poll loop (utils.py lines 469-490): poll the order every 15s
while `elapsed < 300`, i.e. at most 20 polls.  A `FILLED` status breaks to the
fill path; `CANCELED`/`REJECTED`/`EXPIRED` returns without protective orders;
any exception returns; exhausting the budget falls through to the market
fallback (`timeout`).  `i` is the index of the next poll, `fuel` the number of
polls remaining. -/
def runPolls (polls : Nat → Except Unit FutOrderInfo) : Nat → Nat → PollOutcome
  | _, 0 => .timeout
  | i, fuel + 1 =>
    match polls i with
    | .error _ => .abortedError (i + 1)
    | .ok info =>
      if info.status = "FILLED" then .filled info (i + 1)
      else if terminalAbort info.status then .abortedStatus info.status (i + 1)
      else runPolls polls (i + 1) fuel

/-- Result of the futures entry handler.  `exception` models an unhandled
exception escaping the fallback path (market creation or status lookup
raising outside any try block). -/
inductive EnterResult
  | validationError (msg : String)
  | aborted
  | exception
  | completed (entryId : Nat) (fillPrice fillQty commission : ℚ) (feeAsset : String)
deriving DecidableEq, Repr

/-- Protective-order placement after a fill (utils.py lines 536-602): a
STOP_MARKET if `sl_pct > 0`, then a TAKE_PROFIT_MARKET if `tp_pct > 0`, then a
TRAILING_STOP_MARKET if `trail_pct > 0`, each on the side opposing the entry
with `closePosition=True`; trigger prices are formatted to the price
precision, the trailing quantity to the quantity precision. -/
def placeProtective (env : EnterEnv) (action : Side)
    (filled_price filled_qty tp_pct sl_pct trail_pct : ℚ) : List GCall :=
  (if 0 < sl_pct then
    [GCall.futuresCreateOrder action.flip .stopMarket none none
      (some (format_val (sl_price action filled_price sl_pct env.tick).val
        env.pricePrecision)) none false true]
  else []) ++
  (if 0 < tp_pct then
    [GCall.futuresCreateOrder action.flip .takeProfitMarket none none
      (some (format_val (tp_price action filled_price tp_pct env.tick).val
        env.pricePrecision)) none false true]
  else []) ++
  (if 0 < trail_pct then
    [GCall.futuresCreateOrder action.flip .trailingStopMarket
      (some (format_val filled_qty env.quantityPrecision)) none none
      (some (callback_rate trail_pct)) false true]
  else [])

/-- The tail of the entry handler after a fill is known (utils.py lines
517-602): write the "enter" audit row (note `"Order {entry_id}"`), cancel any
lingering protective orders, then place the requested protective orders. -/
def finishEntry (env : EnterEnv) (ticker : String) (action : Side)
    (entryId : Nat) (filled_price filled_qty commission : ℚ) (fee_asset : String)
    (tp_pct sl_pct trail_pct : ℚ) (callsBefore : List GCall) :
    EnterResult × List GCall × List TxRecord :=
  let record : TxRecord :=
    { txType := "enter", inn := filled_qty, innAsset := ticker.replace "USDT" "",
      ut := filled_price * filled_qty, utAsset := "USDT", fee := commission,
      feeAsset := fee_asset, market := ticker, noteOrderId := entryId }
  (.completed entryId filled_price filled_qty commission fee_asset,
    callsBefore ++ cancel_related_orders env.openOrders ++
      placeProtective env action filled_price filled_qty tp_pct sl_pct trail_pct,
    [record])

/-- `handle_enter_trade`, futures branch (utils.py lines 412-602), as a
function of the payload fields and a gateway-response environment.  Decimal
arithmetic is modelled exactly; the payload percentages are divided by 100 on
entry (lines 428-431).  Returns the result, the gateway-call trace in issue
order, and the audit rows written. -/
def enterFutures (env : EnterEnv) (ticker : String) (action : Side)
    (order_price leverage percent_of_equity take_profit_percent
      stop_loss_percent trailing_stop_percentage : ℚ) :
    EnterResult × List GCall × List TxRecord :=
  let percent_equity := percent_of_equity / 100
  let tp_pct := take_profit_percent / 100
  let sl_pct := stop_loss_percent / 100
  let trail_pct := trailing_stop_percentage / 100
  let pre : List GCall :=
    [.futuresChangeLeverage (truncQ leverage), .futuresAccount, .futuresExchangeInfo]
  let raw_qty := env.margin * leverage * percent_equity / order_price
  let qty := adjust_to_step raw_qty env.step
  let notional := qty.val * order_price
  if notional < minNotional then
    (.validationError "Trade value too low", pre, [])
  else
    let limitCall := GCall.futuresCreateOrder action .limit
      (some (format_val qty.val env.quantityPrecision))
      (some (format_val order_price env.pricePrecision)) none none false false
    let entryId := env.limitId
    let pollCalls : Nat → List GCall := fun n =>
      List.replicate n (GCall.futuresGetOrder entryId)
    match runPolls env.polls 0 20 with
    | .abortedError n =>
      (.aborted, pre ++ [limitCall] ++ pollCalls n, [])
    | .abortedStatus _ n =>
      (.aborted, pre ++ [limitCall] ++ pollCalls n, [])
    | .filled info n =>
      let fee := fetch_order_commission (env.trades entryId)
      finishEntry env ticker action entryId info.fillPrice info.executedQty
        fee.1 fee.2 tp_pct sl_pct trail_pct
        (pre ++ [limitCall] ++ pollCalls n ++ [.futuresAccountTrades entryId])
    | .timeout =>
      let marketCall := GCall.futuresCreateOrder action .market
        (some (format_val qty.val env.quantityPrecision)) none none none false false
      let baseCalls := pre ++ [limitCall] ++ pollCalls 20 ++
        [GCall.futuresCancelOrder entryId, marketCall]
      match env.fallbackId with
      | .error _ => (.exception, baseCalls, [])
      | .ok fid =>
        match env.fallbackInfo with
        | .error _ => (.exception, baseCalls ++ [GCall.futuresGetOrder fid], [])
        | .ok finfo =>
          let fee := fetch_order_commission (env.trades fid)
          finishEntry env ticker action fid finfo.fillPrice finfo.executedQty
            fee.1 fee.2 tp_pct sl_pct trail_pct
            (baseCalls ++ [GCall.futuresGetOrder fid, GCall.futuresAccountTrades fid])

/-- Gateway responses for one run of the futures exit handler. -/
structure ExitEnv where
  openOrders : Except Unit (List OpenOrder)
  positionAmt : ℚ
  entryPrice : ℚ
  quantityPrecision : Nat
  exitId : Nat
  exitInfo : FutOrderInfo
  trades : Nat → Except Unit (List Trade)

/-- `handle_exit_trade`, futures branch (utils.py lines 783-854): cancel the
protective orders, read the position, submit a reduce-only MARKET order for
`abs(positionAmt)` formatted to the quantity precision (`get_symbol_info` is
called inline to obtain that precision), fetch the fill and the fee, compute
P&L against the position's entry price, and write one "profit" or "loss"
audit row (note `"Exit {exit_id}"`). -/
def exitFutures (env : ExitEnv) (ticker : String) (action : Side) :
    List GCall × List TxRecord :=
  let qty := |env.positionAmt|
  let closeCall := GCall.futuresCreateOrder action .market
    (some (format_val qty env.quantityPrecision)) none none none true false
  let exit_price := env.exitInfo.fillPrice
  let fee := fetch_order_commission (env.trades env.exitId)
  let pnl :=
    if action = Side.SELL then (exit_price - env.entryPrice) * qty
    else (env.entryPrice - exit_price) * qty
  let record : TxRecord :=
    if 0 ≤ pnl then
      { txType := "profit", inn := pnl, innAsset := "USDT", ut := 0, utAsset := "",
        fee := fee.1, feeAsset := fee.2, market := ticker, noteOrderId := env.exitId }
    else
      { txType := "loss", inn := 0, innAsset := "", ut := |pnl|, utAsset := "USDT",
        fee := fee.1, feeAsset := fee.2, market := ticker, noteOrderId := env.exitId }
  (cancel_related_orders env.openOrders ++
    [GCall.futuresPositionInformation, GCall.futuresExchangeInfo, closeCall,
      GCall.futuresGetOrder env.exitId, GCall.futuresAccountTrades env.exitId],
    [record])

/-- Gateway responses for the protective-order supervision loop:
`position i` answers the position read of iteration `i`; `child i oid`
answers `futures_get_order` for child `oid` in iteration `i`. -/
structure MonitorEnv where
  position : Nat → Except Unit ℚ
  child : Nat → Nat → Except Unit FutOrderInfo
  trades : Nat → Except Unit (List Trade)
  openOrders : Except Unit (List OpenOrder)

/-- Why the supervision loop terminated. -/
inductive MonitorExit
  | flatPosition
  | childFilled (oid : Nat)
  | gatewayError
  | fuelExhausted
deriving DecidableEq, Repr

/-- The child-order scan inside one supervision iteration (utils.py lines
261-274 and 280-294): query each child in order, skipping any whose lookup
raises (`continue`), and stop at the first one whose status is `FILLED`.
Returns the filled child (if any) and the `futures_get_order` calls issued. -/
def scanChildren (resp : Nat → Except Unit FutOrderInfo) :
    List Nat → Option (Nat × FutOrderInfo) × List GCall
  | [] => (none, [])
  | oid :: rest =>
    match resp oid with
    | .error _ =>
      let r := scanChildren resp rest
      (r.1, GCall.futuresGetOrder oid :: r.2)
    | .ok info =>
      if info.status = "FILLED" then (some (oid, info), [GCall.futuresGetOrder oid])
      else
        let r := scanChildren resp rest
        (r.1, GCall.futuresGetOrder oid :: r.2)

/-- `BinanceHelper.monitor_children_and_cancel` (utils.py lines 245-300): each
iteration reads the position; a raised exception ends the loop.  If the
position is flat, scan the children for a fill (fetching its fee when found),
cancel the related orders and return.  Otherwise scan the children; the first
`FILLED` child triggers fee fetch, cancel of the related orders and return;
if none is filled, sleep and iterate.  The source loop is unbounded
(`while True`); `fuel` bounds the modelled iterations, `i` is the iteration
index.  The function writes no audit row: fills are reported through
`logger.info` only, so the returned `TxRecord` list is always empty. -/
def monitorChildren (env : MonitorEnv) (childIds : List Nat) :
    Nat → Nat → MonitorExit × List GCall × List TxRecord
  | _, 0 => (.fuelExhausted, [], [])
  | i, fuel + 1 =>
    match env.position i with
    | .error _ => (.gatewayError, [GCall.futuresPositionInformation], [])
    | .ok amt =>
      if amt = 0 then
        let scan := scanChildren (env.child i) childIds
        let feeCalls := match scan.1 with
          | some (oid, _) => [GCall.futuresAccountTrades oid]
          | none => []
        (.flatPosition,
          GCall.futuresPositionInformation :: scan.2 ++ feeCalls ++
            cancel_related_orders env.openOrders, [])
      else
        let scan := scanChildren (env.child i) childIds
        match scan.1 with
        | some (oid, _) =>
          (.childFilled oid,
            GCall.futuresPositionInformation :: scan.2 ++
              [GCall.futuresAccountTrades oid] ++
              cancel_related_orders env.openOrders, [])
        | none =>
          let r := monitorChildren env childIds (i + 1) fuel
          (r.1, GCall.futuresPositionInformation :: scan.2 ++ r.2.1, r.2.2)

section QuantizeDownLemmas

lemma quantizeDown_val (x : ℚ) (fd : Nat) :
    (quantizeDown x fd).val = (truncQ (x * 10 ^ fd) : ℚ) / 10 ^ fd := rfl

lemma quantizeDown_le {x : ℚ} (fd : Nat) (hx : 0 ≤ x) : (quantizeDown x fd).val ≤ x := by
  have hpow : (0 : ℚ) < 10 ^ fd := by positivity
  rw [quantizeDown_val, div_le_iff₀ hpow]
  exact truncQ_le (by positivity)

lemma quantizeDown_gap {x : ℚ} (fd : Nat) (hx : 0 ≤ x) :
    x - (quantizeDown x fd).val < 1 / 10 ^ fd := by
  have hpow : (0 : ℚ) < 10 ^ fd := by positivity
  have h := lt_truncQ_add_one (show 0 ≤ x * 10 ^ fd by positivity)
  rw [quantizeDown_val]
  rw [sub_lt_iff_lt_add, div_add_div_same, lt_div_iff₀ hpow]
  linarith

lemma quantizeDown_multiple (x : ℚ) (fd : Nat) :
    ∃ k : ℤ, (quantizeDown x fd).val = (k : ℚ) / 10 ^ fd :=
  ⟨truncQ (x * 10 ^ fd), rfl⟩

end QuantizeDownLemmas

/-- C3 counterexample: `adjust_to_step` applied to a negative value rounds
toward zero, i.e. upward, so the result exceeds the value:
`adjust_to_step(-3, step=2) = -2 > -3`. -/
theorem C3_counterexample :
    ¬ ((adjust_to_step (-3 : ℚ) ⟨2, 0⟩).val ≤ (-3 : ℚ)) := by
  norm_num [adjust_to_step, truncQ, Dec.val]

/-- C3 (amended): for all NON-NEGATIVE `value` and positive `step`,
`adjust_to_step value step` is ≤ `value`, is an integer multiple of `step`,
differs from `value` by less than `step`, carries exactly as many fractional
digits as `step`, and maps `0` to `0`.  (For negative values the source's
`Decimal` floor-division truncates toward zero, so the result can exceed the
value.) -/
theorem C3_quantize_down_props (value : ℚ) (step : Dec)
    (hv : 0 ≤ value) (hs : 0 < step.man) :
    (adjust_to_step value step).val ≤ value ∧
    (∃ k : ℤ, (adjust_to_step value step).val = (k : ℚ) * step.val) ∧
    value - (adjust_to_step value step).val < step.val ∧
    (adjust_to_step value step).fd = step.fd ∧
    (adjust_to_step 0 step).val = 0 :=
  ⟨adjust_to_step_le hv hs,
    ⟨truncQ (value / step.val), adjust_to_step_val⟩,
    adjust_to_step_gap hv hs, adjust_to_step_fd, adjust_to_step_zero step⟩

/-- Witness for C3 at `value = 7/2`, `step = 0.1`. -/
theorem C3_witness :
    ((0 : ℚ) ≤ 7/2 ∧ (0 : Int) < (Dec.mk 1 1).man) ∧
    ((adjust_to_step (7/2 : ℚ) ⟨1, 1⟩).val ≤ 7/2 ∧
      (∃ k : ℤ, (adjust_to_step (7/2 : ℚ) ⟨1, 1⟩).val = (k : ℚ) * (Dec.mk 1 1).val) ∧
      (7/2 : ℚ) - (adjust_to_step (7/2 : ℚ) ⟨1, 1⟩).val < (Dec.mk 1 1).val ∧
      (adjust_to_step (7/2 : ℚ) ⟨1, 1⟩).fd = (Dec.mk 1 1).fd ∧
      (adjust_to_step 0 ⟨1, 1⟩).val = 0) :=
  ⟨⟨by norm_num, by norm_num⟩,
    C3_quantize_down_props (7/2) ⟨1, 1⟩ (by norm_num) (by norm_num)⟩

/-- C1 counterexample: at the claim's own scenario (take-profit ROI 10,
leverage 10, Long, entry 50000, tick 0.10) the engine computes a take-profit
trigger of 55000, not the claimed 50500: the requested percentage is NOT
divided by the leverage (utils.py lines 429, 566). -/
theorem C1_counterexample :
    (tp_price .BUY 50000 ((10 : ℚ) / 100) ⟨10, 2⟩).val ≠ 50500 := by
  norm_num [tp_price, quantizeDown, truncQ, Dec.val]

/-- C1 (amended): the protective trigger prices satisfy, for a Long entry,
take-profit = entry × (1 + tp_roi/100) and stop-loss = entry × (1 − sl_roi/100)
— the ROI percentage is NOT divided by the leverage — each rounded toward zero
to the tick size's fractional digits (largest such value ≤ the exact product,
within one tick unit of it); for a Short entry the signs invert.  At the
scenario tp_roi = 10, Long, entry = 50000, tick 0.10 the take-profit price is
55000.00. -/
theorem C1_protective_prices (entry tp_roi sl_roi : ℚ) (tick : Dec)
    (htp : 0 ≤ entry * (1 + tp_roi / 100)) (hsl : 0 ≤ entry * (1 - sl_roi / 100)) :
    ((tp_price .BUY entry (tp_roi / 100) tick).val ≤ entry * (1 + tp_roi / 100) ∧
      entry * (1 + tp_roi / 100) - (tp_price .BUY entry (tp_roi / 100) tick).val
        < 1 / 10 ^ tick.fd ∧
      ∃ k : ℤ, (tp_price .BUY entry (tp_roi / 100) tick).val = (k : ℚ) / 10 ^ tick.fd) ∧
    ((sl_price .BUY entry (sl_roi / 100) tick).val ≤ entry * (1 - sl_roi / 100) ∧
      entry * (1 - sl_roi / 100) - (sl_price .BUY entry (sl_roi / 100) tick).val
        < 1 / 10 ^ tick.fd ∧
      ∃ k : ℤ, (sl_price .BUY entry (sl_roi / 100) tick).val = (k : ℚ) / 10 ^ tick.fd) ∧
    tp_price .SELL entry (tp_roi / 100) tick = sl_price .BUY entry (tp_roi / 100) tick ∧
    sl_price .SELL entry (sl_roi / 100) tick = tp_price .BUY entry (sl_roi / 100) tick ∧
    (tp_price .BUY 50000 ((10 : ℚ) / 100) ⟨10, 2⟩).val = 55000 := by
  refine ⟨⟨quantizeDown_le tick.fd htp, quantizeDown_gap tick.fd htp,
      quantizeDown_multiple _ tick.fd⟩,
    ⟨quantizeDown_le tick.fd hsl, quantizeDown_gap tick.fd hsl,
      quantizeDown_multiple _ tick.fd⟩, rfl, rfl, ?_⟩
  norm_num [tp_price, quantizeDown, truncQ, Dec.val]

/-- Witness for C1 at entry 50000, tp_roi 10, sl_roi 3, tick 0.10. -/
theorem C1_witness :
    ((0 : ℚ) ≤ 50000 * (1 + 10 / 100) ∧ (0 : ℚ) ≤ 50000 * (1 - 3 / 100)) ∧
    (((tp_price .BUY 50000 ((10 : ℚ) / 100) ⟨10, 2⟩).val ≤ 50000 * (1 + 10 / 100) ∧
      50000 * (1 + (10 : ℚ) / 100) - (tp_price .BUY 50000 ((10 : ℚ) / 100) ⟨10, 2⟩).val
        < 1 / 10 ^ (Dec.mk 10 2).fd ∧
      ∃ k : ℤ, (tp_price .BUY 50000 ((10 : ℚ) / 100) ⟨10, 2⟩).val
        = (k : ℚ) / 10 ^ (Dec.mk 10 2).fd) ∧
    ((sl_price .BUY 50000 ((3 : ℚ) / 100) ⟨10, 2⟩).val ≤ 50000 * (1 - 3 / 100) ∧
      50000 * (1 - (3 : ℚ) / 100) - (sl_price .BUY 50000 ((3 : ℚ) / 100) ⟨10, 2⟩).val
        < 1 / 10 ^ (Dec.mk 10 2).fd ∧
      ∃ k : ℤ, (sl_price .BUY 50000 ((3 : ℚ) / 100) ⟨10, 2⟩).val
        = (k : ℚ) / 10 ^ (Dec.mk 10 2).fd) ∧
    tp_price .SELL 50000 ((10 : ℚ) / 100) ⟨10, 2⟩
      = sl_price .BUY 50000 ((10 : ℚ) / 100) ⟨10, 2⟩ ∧
    sl_price .SELL 50000 ((3 : ℚ) / 100) ⟨10, 2⟩
      = tp_price .BUY 50000 ((3 : ℚ) / 100) ⟨10, 2⟩ ∧
    (tp_price .BUY 50000 ((10 : ℚ) / 100) ⟨10, 2⟩).val = 55000) :=
  ⟨⟨by norm_num, by norm_num⟩,
    C1_protective_prices 50000 10 3 ⟨10, 2⟩ (by norm_num) (by norm_num)⟩

/-- C4 counterexample: at the claim's own scenario (trailing ROI 0.5,
leverage 20) the engine submits a callback rate of 0.5%, not the claimed
clamped 0.1%: the requested percentage is NOT divided by the leverage
(utils.py lines 592-593). -/
theorem C4_counterexample :
    callback_rate ((1/2 : ℚ) / 100) = 1/2 ∧ ((1/2 : ℚ) ≠ 1/10) := by
  constructor
  · norm_num [callback_rate]
  · norm_num

/-- C4 (amended): the submitted trailing callback rate equals the requested
ROI percentage itself — not divided by the leverage — clamped up to the 0.1%
minimum; and when the clamp fires, that fact is NOT recorded distinguishably:
the emitted parameters for the clamped request 0.05% and the unclamped request
0.1% are identical. -/
theorem C4_callback_rate (trail_roi : ℚ) :
    callback_rate (trail_roi / 100) = max trail_roi (1/10) ∧
    callback_rate ((1/2 : ℚ) / 100) = 1/2 ∧
    callback_rate ((1/20 : ℚ) / 100) = callback_rate ((1/10 : ℚ) / 100) := by
  refine ⟨?_, by norm_num [callback_rate], by norm_num [callback_rate]⟩
  have h : trail_roi / 100 * 100 = trail_roi := by field_simp
  simp only [callback_rate, h]
  rcases le_or_lt (1/10 : ℚ) trail_roi with hle | hlt
  · rw [if_pos hle, max_eq_left hle]
  · rw [if_neg (not_le.mpr hlt), max_eq_right hlt.le]

section PollLemmas

/-- A poll response that keeps the entry loop waiting: the lookup succeeded
and the status is neither `FILLED` nor terminal. -/
def nonterminalOk (r : Except Unit FutOrderInfo) : Prop :=
  ∃ info, r = .ok info ∧ info.status ≠ "FILLED" ∧ terminalAbort info.status = false

lemma runPolls_skip_prefix (polls : Nat → Except Unit FutOrderInfo) :
    ∀ (k i fuel : Nat), k ≤ fuel → (∀ j, j < k → nonterminalOk (polls (i + j))) →
      runPolls polls i fuel = runPolls polls (i + k) (fuel - k) := by
  intro k
  induction k with
  | zero => intro i fuel _ _; simp
  | succ k ih =>
    intro i fuel hk h
    obtain ⟨f, rfl⟩ : ∃ f, fuel = f + 1 := ⟨fuel - 1, by omega⟩
    obtain ⟨info, heq, hnf, hnt⟩ := h 0 (by omega)
    rw [show i + 0 = i by omega] at heq
    have step : runPolls polls i (f + 1) = runPolls polls (i + 1) f := by
      simp only [runPolls, heq, if_neg hnf, hnt]
      simp
    rw [step, ih (i + 1) f (by omega)
      (fun j hj => by
        have := h (j + 1) (by omega)
        rwa [show i + (j + 1) = i + 1 + j by omega] at this)]
    congr 1
    · omega
    · omega

lemma terminalAbort_ne_filled {s : String} (h : terminalAbort s = true) :
    s ≠ "FILLED" := by
  have : s = "CANCELED" ∨ s = "REJECTED" ∨ s = "EXPIRED" := by
    simpa [terminalAbort] using h
  rcases this with h | h | h <;> subst h <;> decide

lemma runPolls_timeout (polls : Nat → Except Unit FutOrderInfo)
    (h : ∀ j, j < 20 → nonterminalOk (polls j)) :
    runPolls polls 0 20 = .timeout := by
  have := runPolls_skip_prefix polls 20 0 20 (le_refl _)
    (fun j hj => by simpa using h j hj)
  simpa [runPolls] using this

lemma runPolls_aborted_error (polls : Nat → Except Unit FutOrderInfo) (k : Nat)
    (hk : k < 20) (h : ∀ j, j < k → nonterminalOk (polls j))
    (he : polls k = .error ()) :
    runPolls polls 0 20 = .abortedError (k + 1) := by
  have hcong := runPolls_skip_prefix polls k 0 20 (by omega)
    (fun j hj => by simpa using h j hj)
  rw [hcong]
  obtain ⟨m, hm⟩ : ∃ m, 20 - k = m + 1 := ⟨20 - k - 1, by omega⟩
  rw [hm]
  simp [runPolls, he]

lemma runPolls_aborted_status (polls : Nat → Except Unit FutOrderInfo) (k : Nat)
    (info : FutOrderInfo) (hk : k < 20) (h : ∀ j, j < k → nonterminalOk (polls j))
    (he : polls k = .ok info) (ht : terminalAbort info.status = true) :
    runPolls polls 0 20 = .abortedStatus info.status (k + 1) := by
  have hcong := runPolls_skip_prefix polls k 0 20 (by omega)
    (fun j hj => by simpa using h j hj)
  rw [hcong]
  obtain ⟨m, hm⟩ : ∃ m, 20 - k = m + 1 := ⟨20 - k - 1, by omega⟩
  rw [hm]
  simp [runPolls, he, terminalAbort_ne_filled ht, ht]

lemma runPolls_filled (polls : Nat → Except Unit FutOrderInfo) (k : Nat)
    (info : FutOrderInfo) (hk : k < 20) (h : ∀ j, j < k → nonterminalOk (polls j))
    (he : polls k = .ok info) (ht : info.status = "FILLED") :
    runPolls polls 0 20 = .filled info (k + 1) := by
  have hcong := runPolls_skip_prefix polls k 0 20 (by omega)
    (fun j hj => by simpa using h j hj)
  rw [hcong]
  obtain ⟨m, hm⟩ : ∃ m, 20 - k = m + 1 := ⟨20 - k - 1, by omega⟩
  rw [hm]
  simp [runPolls, he, ht]

end PollLemmas

/-- An entry environment whose margin is too small for the requested trade:
`margin = 10`, so at price 100, leverage 1 and 10% of equity the notional is 1,
below the floor of 5. -/
def lowNotionalEnv : EnterEnv :=
  { margin := 10, tick := ⟨1, 1⟩, step := ⟨1, 3⟩, pricePrecision := 2,
    quantityPrecision := 3, limitId := 1, polls := fun _ => .error (),
    fallbackId := .error (), fallbackInfo := .error (),
    trades := fun _ => .error (), openOrders := .error () }

/-- C2 counterexample: a below-floor entry does raise the validation error,
but only after three gateway requests (set-leverage, account balance, exchange
info) have already been issued — the trace at the abort is not empty. -/
theorem C2_counterexample :
    (enterFutures lowNotionalEnv "BTCUSDT" .BUY 100 1 10 0 0 0).1
      = .validationError "Trade value too low" ∧
    (enterFutures lowNotionalEnv "BTCUSDT" .BUY 100 1 10 0 0 0).2.1
      = [.futuresChangeLeverage 1, .futuresAccount, .futuresExchangeInfo] ∧
    (enterFutures lowNotionalEnv "BTCUSDT" .BUY 100 1 10 0 0 0).2.1 ≠ [] := by
  simp only [enterFutures, lowNotionalEnv]
  split_ifs with hc
  · refine ⟨rfl, ?_, by simp⟩
    norm_num [truncQ]
  · exfalso
    apply hc
    norm_num [adjust_to_step, truncQ, Dec.val, minNotional]

/-- C2 (amended): whenever the quantized notional is below the minimum floor,
the futures entry raises the "Trade value too low" validation error with NO
order submitted and no audit row written — but it has already issued the
leverage-change, account-balance and exchange-info gateway requests, so the
abort is not free of exchange calls. -/
theorem C2_below_min_notional (env : EnterEnv) (ticker : String) (action : Side)
    (p lev pe tp sl tr : ℚ)
    (h : (adjust_to_step (env.margin * lev * (pe / 100) / p) env.step).val * p
      < minNotional) :
    (enterFutures env ticker action p lev pe tp sl tr).1
      = .validationError "Trade value too low" ∧
    (enterFutures env ticker action p lev pe tp sl tr).2.1
      = [.futuresChangeLeverage (truncQ lev), .futuresAccount, .futuresExchangeInfo] ∧
    (∀ c ∈ (enterFutures env ticker action p lev pe tp sl tr).2.1,
      c.isCreateOrder = false) ∧
    (enterFutures env ticker action p lev pe tp sl tr).2.2 = [] := by
  have hmain : enterFutures env ticker action p lev pe tp sl tr
      = (.validationError "Trade value too low",
        [.futuresChangeLeverage (truncQ lev), .futuresAccount, .futuresExchangeInfo],
        []) := by
    simp only [enterFutures, if_pos h]
  rw [hmain]
  refine ⟨rfl, rfl, ?_, rfl⟩
  intro c hc
  simp only [List.mem_cons, List.not_mem_nil, or_false] at hc
  rcases hc with rfl | rfl | rfl <;> rfl

/-- Witness for C2 at the `lowNotionalEnv` scenario. -/
theorem C2_witness :
    ((adjust_to_step ((lowNotionalEnv.margin * 1 * ((10 : ℚ) / 100)) / 100)
        lowNotionalEnv.step).val * 100 < minNotional) ∧
    ((enterFutures lowNotionalEnv "ETHUSDT" .SELL 100 1 10 0 0 0).1
        = .validationError "Trade value too low" ∧
      (enterFutures lowNotionalEnv "ETHUSDT" .SELL 100 1 10 0 0 0).2.1
        = [.futuresChangeLeverage (truncQ 1), .futuresAccount, .futuresExchangeInfo] ∧
      (∀ c ∈ (enterFutures lowNotionalEnv "ETHUSDT" .SELL 100 1 10 0 0 0).2.1,
        c.isCreateOrder = false) ∧
      (enterFutures lowNotionalEnv "ETHUSDT" .SELL 100 1 10 0 0 0).2.2 = []) :=
  ⟨by norm_num [adjust_to_step, truncQ, Dec.val, minNotional, lowNotionalEnv],
    C2_below_min_notional lowNotionalEnv "ETHUSDT" .SELL 100 1 10 0 0 0
      (by norm_num [adjust_to_step, truncQ, Dec.val, minNotional, lowNotionalEnv])⟩

/-- The spec's sizing scenario: margin 10000, leverage 10, 10% of equity,
price 50000, tick 0.10, step 0.001. -/
def scenarioEnv : EnterEnv :=
  { margin := 10000, tick := ⟨10, 2⟩, step := ⟨1, 3⟩, pricePrecision := 2,
    quantityPrecision := 3, limitId := 11, polls := fun _ => .error (),
    fallbackId := .error (), fallbackInfo := .error (),
    trades := fun _ => .error (), openOrders := .error () }

/-- C7: whenever the quantized notional clears the floor, the limit order the
engine submits carries quantity `adjust_to_step((margin × leverage ×
equity_fraction) / price, step_size)`, rendered exactly when the step has no
more fractional digits than the quantity precision; at the spec's scenario
the quantity is 0.200. -/
theorem C7_order_quantity (env : EnterEnv) (ticker : String) (action : Side)
    (p lev pe tp sl tr : ℚ)
    (hnot : ¬ (adjust_to_step (env.margin * lev * (pe / 100) / p) env.step).val * p
      < minNotional)
    (hprec : env.step.fd ≤ env.quantityPrecision) :
    (GCall.futuresCreateOrder action .limit
        (some (format_val
          (adjust_to_step (env.margin * lev * (pe / 100) / p) env.step).val
          env.quantityPrecision))
        (some (format_val p env.pricePrecision)) none none false false)
      ∈ (enterFutures env ticker action p lev pe tp sl tr).2.1 ∧
    (format_val (adjust_to_step (env.margin * lev * (pe / 100) / p) env.step).val
        env.quantityPrecision).val
      = (adjust_to_step (env.margin * lev * (pe / 100) / p) env.step).val ∧
    adjust_to_step ((10000 * 10 * ((10 : ℚ) / 100)) / 50000) ⟨1, 3⟩ = ⟨200, 3⟩ := by
  refine ⟨?_, ?_, ?_⟩
  · simp only [enterFutures, if_neg hnot]
    cases hrp : runPolls env.polls 0 20 with
    | filled info n => simp [finishEntry]
    | abortedStatus s n => simp
    | abortedError n => simp
    | timeout =>
      cases env.fallbackId with
      | error e => simp
      | ok fid =>
        cases env.fallbackInfo with
        | error e => simp
        | ok finfo => simp [finishEntry]
  · have h := format_val_exact (adjust_to_step (env.margin * lev * (pe / 100) / p) env.step)
      env.quantityPrecision (by rw [adjust_to_step_fd]; exact hprec)
    exact h.2
  · norm_num [adjust_to_step, truncQ, Dec.val]

/-- Witness for C7 at the spec's scenario environment. -/
theorem C7_witness :
    ((GCall.futuresCreateOrder .BUY .limit
        (some (format_val
          (adjust_to_step (scenarioEnv.margin * 10 * ((10 : ℚ) / 100) / 50000)
            scenarioEnv.step).val
          scenarioEnv.quantityPrecision))
        (some (format_val 50000 scenarioEnv.pricePrecision)) none none false false)
      ∈ (enterFutures scenarioEnv "BTCUSDT" .BUY 50000 10 10 5 2 1).2.1 ∧
    (format_val
        (adjust_to_step (scenarioEnv.margin * 10 * ((10 : ℚ) / 100) / 50000)
          scenarioEnv.step).val
        scenarioEnv.quantityPrecision).val
      = (adjust_to_step (scenarioEnv.margin * 10 * ((10 : ℚ) / 100) / 50000)
          scenarioEnv.step).val ∧
    adjust_to_step ((10000 * 10 * ((10 : ℚ) / 100)) / 50000) ⟨1, 3⟩ = ⟨200, 3⟩) :=
  C7_order_quantity scenarioEnv "BTCUSDT" .BUY 50000 10 10 5 2 1
    (by norm_num [adjust_to_step, truncQ, Dec.val, minNotional, scenarioEnv])
    (by norm_num [scenarioEnv])

/-- C8: if the `k`-th poll of the entry order (after `k` non-terminal polls)
observes a Canceled/Rejected/Expired status or raises, the entry ends in the
aborted outcome immediately: the trace stops after exactly `k + 1` status
polls — no retry past the failure — no protective order is ever submitted,
and no audit row is written. -/
theorem C8_abort_ends_attempt (env : EnterEnv) (ticker : String) (action : Side)
    (p lev pe tp sl tr : ℚ) (k : Nat) (hk : k < 20)
    (hpre : ∀ j, j < k → nonterminalOk (env.polls j))
    (hterm : env.polls k = .error () ∨
      ∃ info, env.polls k = .ok info ∧ terminalAbort info.status = true)
    (hnot : ¬ (adjust_to_step (env.margin * lev * (pe / 100) / p) env.step).val * p
      < minNotional) :
    (enterFutures env ticker action p lev pe tp sl tr).1 = .aborted ∧
    (enterFutures env ticker action p lev pe tp sl tr).2.1
      = [.futuresChangeLeverage (truncQ lev), .futuresAccount, .futuresExchangeInfo,
          .futuresCreateOrder action .limit
            (some (format_val
              (adjust_to_step (env.margin * lev * (pe / 100) / p) env.step).val
              env.quantityPrecision))
            (some (format_val p env.pricePrecision)) none none false false]
        ++ List.replicate (k + 1) (GCall.futuresGetOrder env.limitId) ∧
    (∀ c ∈ (enterFutures env ticker action p lev pe tp sl tr).2.1,
      c.isProtectiveCreate = false) ∧
    (enterFutures env ticker action p lev pe tp sl tr).2.2 = [] := by
  have hrun : (runPolls env.polls 0 20 = .abortedError (k + 1)) ∨
      ∃ s, runPolls env.polls 0 20 = .abortedStatus s (k + 1) := by
    rcases hterm with he | ⟨info, he, ht⟩
    · exact Or.inl (runPolls_aborted_error env.polls k hk hpre he)
    · exact Or.inr ⟨info.status, runPolls_aborted_status env.polls k info hk hpre he ht⟩
  have hmain : enterFutures env ticker action p lev pe tp sl tr
      = (.aborted,
          [.futuresChangeLeverage (truncQ lev), .futuresAccount, .futuresExchangeInfo,
            .futuresCreateOrder action .limit
              (some (format_val
                (adjust_to_step (env.margin * lev * (pe / 100) / p) env.step).val
                env.quantityPrecision))
              (some (format_val p env.pricePrecision)) none none false false]
            ++ List.replicate (k + 1) (GCall.futuresGetOrder env.limitId),
          []) := by
    rcases hrun with hrp | ⟨s, hrp⟩ <;>
      simp [enterFutures, if_neg hnot, hrp]
  rw [hmain]
  refine ⟨rfl, rfl, ?_, rfl⟩
  intro c hc
  simp only [List.mem_append, List.mem_cons, List.not_mem_nil, or_false] at hc
  rcases hc with (rfl | rfl | rfl | rfl) | hc
  · rfl
  · rfl
  · rfl
  · rfl
  · rw [List.eq_of_mem_replicate hc]
    rfl

/-- An entry environment whose very first poll reports the order Canceled. -/
def canceledEnv : EnterEnv :=
  { margin := 10000, tick := ⟨10, 2⟩, step := ⟨1, 3⟩, pricePrecision := 2,
    quantityPrecision := 3, limitId := 11,
    polls := fun _ => .ok ⟨"CANCELED", none, 0, 0⟩,
    fallbackId := .error (), fallbackInfo := .error (),
    trades := fun _ => .error (), openOrders := .error () }

/-- Witness for C8: the first poll observes `CANCELED`; the attempt aborts
after that single poll, with no protective order and no audit row. -/
theorem C8_witness :
    ((0 : Nat) < 20 ∧
      (canceledEnv.polls 0 = .error () ∨
        ∃ info, canceledEnv.polls 0 = .ok info ∧ terminalAbort info.status = true)) ∧
    ((enterFutures canceledEnv "BTCUSDT" .BUY 50000 10 10 5 2 1).1 = .aborted ∧
      (enterFutures canceledEnv "BTCUSDT" .BUY 50000 10 10 5 2 1).2.1
        = [.futuresChangeLeverage (truncQ 10), .futuresAccount, .futuresExchangeInfo,
            .futuresCreateOrder .BUY .limit
              (some (format_val
                (adjust_to_step (canceledEnv.margin * 10 * ((10 : ℚ) / 100) / 50000)
                  canceledEnv.step).val
                canceledEnv.quantityPrecision))
              (some (format_val 50000 canceledEnv.pricePrecision)) none none false false]
          ++ List.replicate (0 + 1) (GCall.futuresGetOrder canceledEnv.limitId) ∧
      (∀ c ∈ (enterFutures canceledEnv "BTCUSDT" .BUY 50000 10 10 5 2 1).2.1,
        c.isProtectiveCreate = false) ∧
      (enterFutures canceledEnv "BTCUSDT" .BUY 50000 10 10 5 2 1).2.2 = []) :=
  ⟨⟨by norm_num, Or.inr ⟨⟨"CANCELED", none, 0, 0⟩, rfl, by decide⟩⟩,
    C8_abort_ends_attempt canceledEnv "BTCUSDT" .BUY 50000 10 10 5 2 1 0
      (by norm_num) (fun j hj => absurd hj (Nat.not_lt_zero j))
      (Or.inr ⟨⟨"CANCELED", none, 0, 0⟩, rfl, by decide⟩)
      (by norm_num [adjust_to_step, truncQ, Dec.val, minNotional, canceledEnv])⟩

/-- C6: if all 20 polls (300s at 15s) observe a non-terminal status, the
engine cancels the stale limit order, submits a market order for the same
quantity, completes with the market fill's realized price as the entry price,
and the single "enter" audit row's note carries the fallback order's id, not
the original limit order's id. -/
theorem C6_timeout_fallback (env : EnterEnv) (ticker : String) (action : Side)
    (p lev pe tp sl tr : ℚ) (fid : Nat) (finfo : FutOrderInfo)
    (hpolls : ∀ j, j < 20 → nonterminalOk (env.polls j))
    (hfid : env.fallbackId = .ok fid)
    (hfinfo : env.fallbackInfo = .ok finfo)
    (hnot : ¬ (adjust_to_step (env.margin * lev * (pe / 100) / p) env.step).val * p
      < minNotional) :
    (enterFutures env ticker action p lev pe tp sl tr).1
      = .completed fid finfo.fillPrice finfo.executedQty
          (fetch_order_commission (env.trades fid)).1
          (fetch_order_commission (env.trades fid)).2 ∧
    GCall.futuresCancelOrder env.limitId
      ∈ (enterFutures env ticker action p lev pe tp sl tr).2.1 ∧
    (GCall.futuresCreateOrder action .market
        (some (format_val
          (adjust_to_step (env.margin * lev * (pe / 100) / p) env.step).val
          env.quantityPrecision)) none none none false false)
      ∈ (enterFutures env ticker action p lev pe tp sl tr).2.1 ∧
    (∃ r, (enterFutures env ticker action p lev pe tp sl tr).2.2 = [r] ∧
      r.noteOrderId = fid ∧
      r.ut = finfo.fillPrice * finfo.executedQty ∧
      (env.limitId ≠ fid → r.noteOrderId ≠ env.limitId)) := by
  have hrp := runPolls_timeout env.polls hpolls
  have hred : enterFutures env ticker action p lev pe tp sl tr
      = finishEntry env ticker action fid finfo.fillPrice finfo.executedQty
          (fetch_order_commission (env.trades fid)).1
          (fetch_order_commission (env.trades fid)).2
          (tp / 100) (sl / 100) (tr / 100)
          ([.futuresChangeLeverage (truncQ lev), .futuresAccount, .futuresExchangeInfo,
            .futuresCreateOrder action .limit
              (some (format_val
                (adjust_to_step (env.margin * lev * (pe / 100) / p) env.step).val
                env.quantityPrecision))
              (some (format_val p env.pricePrecision)) none none false false]
            ++ List.replicate 20 (GCall.futuresGetOrder env.limitId)
            ++ [GCall.futuresCancelOrder env.limitId,
                GCall.futuresCreateOrder action .market
                  (some (format_val
                    (adjust_to_step (env.margin * lev * (pe / 100) / p) env.step).val
                    env.quantityPrecision)) none none none false false]
            ++ [GCall.futuresGetOrder fid, GCall.futuresAccountTrades fid]) := by
    simp [enterFutures, if_neg hnot, hrp, hfid, hfinfo]
  rw [hred]
  refine ⟨rfl, ?_, ?_, ?_⟩
  · simp [finishEntry]
  · simp [finishEntry]
  · exact ⟨_, rfl, rfl, rfl, fun hne => fun hc => hne hc.symm⟩

/-- An entry environment whose limit order never reaches a terminal status:
every poll answers `NEW`; the fallback market order (id 12) fills at 50010. -/
def timeoutEnv : EnterEnv :=
  { margin := 10000, tick := ⟨10, 2⟩, step := ⟨1, 3⟩, pricePrecision := 2,
    quantityPrecision := 3, limitId := 11,
    polls := fun _ => .ok ⟨"NEW", none, 50000, 0⟩,
    fallbackId := .ok 12,
    fallbackInfo := .ok ⟨"FILLED", some 50010, 50000, 1/5⟩,
    trades := fun _ => .ok [], openOrders := .ok [] }

/-- Witness for C6 at `timeoutEnv`: the fallback order id 12, not the limit
order id 11, ends up in the audit note, and the entry price is the fallback
fill price 50010. -/
theorem C6_witness :
    (enterFutures timeoutEnv "BTCUSDT" .BUY 50000 10 10 5 2 1).1
      = .completed 12 (FutOrderInfo.mk "FILLED" (some 50010) 50000 (1/5)).fillPrice
          (FutOrderInfo.mk "FILLED" (some 50010) 50000 (1/5)).executedQty
          (fetch_order_commission (timeoutEnv.trades 12)).1
          (fetch_order_commission (timeoutEnv.trades 12)).2 ∧
    GCall.futuresCancelOrder timeoutEnv.limitId
      ∈ (enterFutures timeoutEnv "BTCUSDT" .BUY 50000 10 10 5 2 1).2.1 ∧
    (GCall.futuresCreateOrder .BUY .market
        (some (format_val
          (adjust_to_step (timeoutEnv.margin * 10 * ((10 : ℚ) / 100) / 50000)
            timeoutEnv.step).val
          timeoutEnv.quantityPrecision)) none none none false false)
      ∈ (enterFutures timeoutEnv "BTCUSDT" .BUY 50000 10 10 5 2 1).2.1 ∧
    (∃ r, (enterFutures timeoutEnv "BTCUSDT" .BUY 50000 10 10 5 2 1).2.2 = [r] ∧
      r.noteOrderId = 12 ∧
      r.ut = (FutOrderInfo.mk "FILLED" (some 50010) 50000 (1/5)).fillPrice
        * (FutOrderInfo.mk "FILLED" (some 50010) 50000 (1/5)).executedQty ∧
      (timeoutEnv.limitId ≠ 12 → r.noteOrderId ≠ timeoutEnv.limitId)) :=
  C6_timeout_fallback timeoutEnv "BTCUSDT" .BUY 50000 10 10 5 2 1 12
    ⟨"FILLED", some 50010, 50000, 1/5⟩
    (fun j hj => ⟨⟨"NEW", none, 50000, 0⟩, rfl, by decide, by decide⟩)
    rfl rfl
    (by norm_num [adjust_to_step, truncQ, Dec.val, minNotional, timeoutEnv])

/-- C10: `fetch_order_commission` swallows every trades-endpoint failure,
returning `(0, "")`; consequently an entry whose first poll observes the fill
still completes when every fee lookup fails — the audit row silently carries
fee 0 and an empty fee asset, and the failure aborts nothing. -/
theorem C10_fee_failure_silent (env : EnterEnv) (ticker : String) (action : Side)
    (p lev pe tp sl tr : ℚ) (finfo : FutOrderInfo)
    (hpoll : env.polls 0 = .ok finfo) (hst : finfo.status = "FILLED")
    (htr : ∀ oid, env.trades oid = .error ())
    (hnot : ¬ (adjust_to_step (env.margin * lev * (pe / 100) / p) env.step).val * p
      < minNotional) :
    (∀ e : Unit, fetch_order_commission (.error e) = (0, "")) ∧
    (enterFutures env ticker action p lev pe tp sl tr).1
      = .completed env.limitId finfo.fillPrice finfo.executedQty 0 "" ∧
    (∃ r, (enterFutures env ticker action p lev pe tp sl tr).2.2 = [r] ∧
      r.fee = 0 ∧ r.feeAsset = "") := by
  refine ⟨fun e => rfl, ?_, ?_⟩ <;>
  · have hrp : runPolls env.polls 0 20 = .filled finfo 1 :=
      runPolls_filled env.polls 0 finfo (by norm_num)
        (fun j hj => absurd hj (Nat.not_lt_zero j)) hpoll hst
    simp [enterFutures, if_neg hnot, hrp, finishEntry, htr, fetch_order_commission]

/-- An entry environment whose first poll reports the fill and whose trades
endpoint always fails. -/
def feeFailEnv : EnterEnv :=
  { margin := 10000, tick := ⟨10, 2⟩, step := ⟨1, 3⟩, pricePrecision := 2,
    quantityPrecision := 3, limitId := 11,
    polls := fun _ => .ok ⟨"FILLED", some 50000, 50000, 1/5⟩,
    fallbackId := .error (), fallbackInfo := .error (),
    trades := fun _ => .error (), openOrders := .ok [] }

/-- Witness for C10 at `feeFailEnv`. -/
theorem C10_witness :
    (∀ e : Unit, fetch_order_commission (.error e) = (0, "")) ∧
    (enterFutures feeFailEnv "BTCUSDT" .BUY 50000 10 10 5 2 1).1
      = .completed feeFailEnv.limitId
          (FutOrderInfo.mk "FILLED" (some 50000) 50000 (1/5)).fillPrice
          (FutOrderInfo.mk "FILLED" (some 50000) 50000 (1/5)).executedQty 0 "" ∧
    (∃ r, (enterFutures feeFailEnv "BTCUSDT" .BUY 50000 10 10 5 2 1).2.2 = [r] ∧
      r.fee = 0 ∧ r.feeAsset = "") :=
  C10_fee_failure_silent feeFailEnv "BTCUSDT" .BUY 50000 10 10 5 2 1
    ⟨"FILLED", some 50000, 50000, 1/5⟩ rfl rfl (fun _ => rfl)
    (by norm_num [adjust_to_step, truncQ, Dec.val, minNotional, feeFailEnv])

section MonitorLemmas

lemma cancel_related_covers (ol : List OpenOrder) (o : OpenOrder)
    (ho : o ∈ ol) (hp : o.otype ∈ protectiveTypes) :
    GCall.futuresCancelOrder o.orderId ∈ cancel_related_orders (.ok ol) := by
  simp only [cancel_related_orders, List.mem_cons, List.mem_map, List.mem_filter]
  exact Or.inr ⟨o, ⟨ho, by simpa using hp⟩, rfl⟩

lemma monitorChildren_records_nil (env : MonitorEnv) (ids : List Nat) :
    ∀ fuel i, (monitorChildren env ids i fuel).2.2 = [] := by
  intro fuel
  induction fuel with
  | zero => intro i; rfl
  | succ f ih =>
    intro i
    simp only [monitorChildren]
    cases hp : env.position i with
    | error e => rfl
    | ok amt =>
      by_cases h0 : amt = 0
      · simp [h0]
      · simp only [if_neg h0]
        cases hs : (scanChildren (env.child i) ids).1 with
        | some x => rfl
        | none => simpa using ih (i + 1)

end MonitorLemmas

/-- A supervision environment: position open (1), the tracked child 7 reports
`FILLED`, and two sibling protective orders (8, 9) are open. -/
def filledChildEnv : MonitorEnv :=
  { position := fun _ => .ok 1,
    child := fun _ _ => .ok ⟨"FILLED", some 100, 100, 1⟩,
    trades := fun _ => .ok [],
    openOrders := .ok [⟨8, .takeProfitMarket⟩, ⟨9, .trailingStopMarket⟩] }

/-- C5 counterexample: the supervisor observes child 7 Filled, cancels both
open siblings and terminates — but produces ZERO audit transaction records,
not the claimed exactly one (`monitor_children_and_cancel` never calls
`log_transaction`; it only emits a `logger.info` line). -/
theorem C5_counterexample :
    (monitorChildren filledChildEnv [7] 0 5).1 = .childFilled 7 ∧
    GCall.futuresCancelOrder 8 ∈ (monitorChildren filledChildEnv [7] 0 5).2.1 ∧
    GCall.futuresCancelOrder 9 ∈ (monitorChildren filledChildEnv [7] 0 5).2.1 ∧
    (monitorChildren filledChildEnv [7] 0 5).2.2.length ≠ 1 := by
  have hred : monitorChildren filledChildEnv [7] 0 5
      = (.childFilled 7,
          [GCall.futuresPositionInformation, GCall.futuresGetOrder 7,
            GCall.futuresAccountTrades 7, GCall.futuresGetOpenOrders,
            GCall.futuresCancelOrder 8, GCall.futuresCancelOrder 9], []) := by
    norm_num [monitorChildren, scanChildren, filledChildEnv, cancel_related_orders,
      protectiveTypes]
  rw [hred]
  refine ⟨rfl, ?_, ?_, ?_⟩ <;> simp

/-- C5 (amended): whichever of the claim's two triggers fires — the position
observed flat (utils.py lines 259-277), or the position still open with the
child scan observing a tracked order Filled (lines 279-294) — the supervisor
cancels every still-open protective order and terminates the loop in that
iteration, but produces ZERO audit transaction records either way (the fill
is reported through the info log only). -/
theorem C5_supervisor (env : MonitorEnv) (ids : List Nat) (i fuel : Nat)
    (oid : Nat) (info : FutOrderInfo) (hfuel : 0 < fuel) :
    (env.position i = .ok 0 →
      (monitorChildren env ids i fuel).1 = .flatPosition ∧
      (monitorChildren env ids i fuel).2.2 = [] ∧
      (∀ ol, env.openOrders = .ok ol → ∀ o ∈ ol, o.otype ∈ protectiveTypes →
        GCall.futuresCancelOrder o.orderId ∈ (monitorChildren env ids i fuel).2.1)) ∧
    ((∃ a, env.position i = .ok a ∧ a ≠ 0) →
      (scanChildren (env.child i) ids).1 = some (oid, info) →
      (monitorChildren env ids i fuel).1 = .childFilled oid ∧
      (monitorChildren env ids i fuel).2.2 = [] ∧
      (∀ ol, env.openOrders = .ok ol → ∀ o ∈ ol, o.otype ∈ protectiveTypes →
        GCall.futuresCancelOrder o.orderId ∈ (monitorChildren env ids i fuel).2.1)) := by
  obtain ⟨f, rfl⟩ : ∃ f, fuel = f + 1 := ⟨fuel - 1, by omega⟩
  constructor
  · intro hp
    cases hs : (scanChildren (env.child i) ids).1 with
    | none =>
      refine ⟨by simp [monitorChildren, hp, hs], by simp [monitorChildren, hp, hs], ?_⟩
      intro ol hol o ho hprot
      have hmem := cancel_related_covers ol o ho hprot
      rw [← hol] at hmem
      simp only [monitorChildren, hp, hs, eq_self_iff_true, if_true,
        List.mem_cons, List.mem_append]
      tauto
    | some x =>
      refine ⟨by simp [monitorChildren, hp, hs], by simp [monitorChildren, hp, hs], ?_⟩
      intro ol hol o ho hprot
      have hmem := cancel_related_covers ol o ho hprot
      rw [← hol] at hmem
      simp only [monitorChildren, hp, hs, eq_self_iff_true, if_true,
        List.mem_cons, List.mem_append]
      tauto
  · intro hpos hscan
    obtain ⟨a, hp, ha⟩ := hpos
    have hred : monitorChildren env ids i (f + 1)
        = (.childFilled oid,
            GCall.futuresPositionInformation :: (scanChildren (env.child i) ids).2 ++
              [GCall.futuresAccountTrades oid] ++
              cancel_related_orders env.openOrders, []) := by
      simp [monitorChildren, hp, if_neg ha, hscan]
    rw [hred]
    refine ⟨rfl, rfl, ?_⟩
    intro ol hol o ho hprot
    simp only [List.cons_append, List.mem_cons, List.mem_append]
    right
    right
    rw [hol]
    exact cancel_related_covers ol o ho hprot

/-- A supervision environment whose first position read reports the position
flat, with two protective orders (8, 9) still open. -/
def flatMonitorEnv : MonitorEnv :=
  { position := fun _ => .ok 0,
    child := fun _ _ => .ok ⟨"FILLED", some 100, 100, 1⟩,
    trades := fun _ => .ok [],
    openOrders := .ok [⟨8, .takeProfitMarket⟩, ⟨9, .trailingStopMarket⟩] }

/-- Witness for C5, exercising both triggers: the flat-position trigger at
`flatMonitorEnv` and the child-Filled trigger at `filledChildEnv`; in each
case the two open siblings are cancelled and zero audit rows are written. -/
theorem C5_witness :
    ((monitorChildren flatMonitorEnv [7] 0 5).1 = .flatPosition ∧
      (monitorChildren flatMonitorEnv [7] 0 5).2.2 = [] ∧
      (∀ ol, flatMonitorEnv.openOrders = .ok ol →
        ∀ o ∈ ol, o.otype ∈ protectiveTypes →
          GCall.futuresCancelOrder o.orderId
            ∈ (monitorChildren flatMonitorEnv [7] 0 5).2.1)) ∧
    ((monitorChildren filledChildEnv [7] 0 5).1 = .childFilled 7 ∧
      (monitorChildren filledChildEnv [7] 0 5).2.2 = [] ∧
      (∀ ol, filledChildEnv.openOrders = .ok ol →
        ∀ o ∈ ol, o.otype ∈ protectiveTypes →
          GCall.futuresCancelOrder o.orderId
            ∈ (monitorChildren filledChildEnv [7] 0 5).2.1)) :=
  ⟨(C5_supervisor flatMonitorEnv [7] 0 5 7 ⟨"FILLED", some 100, 100, 1⟩
      (by norm_num)).1 rfl,
    (C5_supervisor filledChildEnv [7] 0 5 7 ⟨"FILLED", some 100, 100, 1⟩
      (by norm_num)).2 ⟨1, rfl, by norm_num⟩
      (by norm_num [scanChildren, filledChildEnv])⟩

/-- An exit environment whose live position is flat (positionAmt = 0). -/
def flatExitEnv : ExitEnv :=
  { openOrders := .ok [⟨3, .stopMarket⟩], positionAmt := 0, entryPrice := 100,
    quantityPrecision := 3, exitId := 5, exitInfo := ⟨"FILLED", some 100, 100, 0⟩,
    trades := fun _ => .ok [] }

/-- C9 counterexample: with a live position size of exactly zero the
flattener is NOT a no-op — it still submits a reduce-only market order (for
quantity 0.000), after cancelling the protective orders; it also performs no
minimum-notional validation and no step-size quantization anywhere on this
path. -/
theorem C9_counterexample :
    flatExitEnv.positionAmt = 0 ∧
    (GCall.futuresCreateOrder .SELL .market (some ⟨0, 3⟩) none none none true false)
      ∈ (exitFutures flatExitEnv "BTCUSDT" .SELL).1 := by
  refine ⟨rfl, ?_⟩
  have hq : format_val (0 : ℚ) 3 = (⟨0, 3⟩ : Dec) := by
    norm_num [format_val, roundHalfEven]
  simp [exitFutures, flatExitEnv, hq, cancel_related_orders]

/-- C9 (amended): on every invocation, the futures flattener first cancels
the protective orders (all of them precede the close submission in the call
trace), then reads the position and submits a reduce-only market order whose
quantity is |positionAmt| merely FORMATTED to the quantity precision — with
no zero-position no-op, no step-size quantization and no minimum-notional
validation — and always writes exactly one audit row, classified "profit"
when the P&L is ≥ 0 and "loss" otherwise. -/
theorem C9_flattener (env : ExitEnv) (ticker : String) (action : Side) :
    (exitFutures env ticker action).1
      = cancel_related_orders env.openOrders ++
        [GCall.futuresPositionInformation, GCall.futuresExchangeInfo,
          GCall.futuresCreateOrder action .market
            (some (format_val |env.positionAmt| env.quantityPrecision))
            none none none true false,
          GCall.futuresGetOrder env.exitId, GCall.futuresAccountTrades env.exitId] ∧
    (exitFutures env ticker action).2.length = 1 ∧
    (∀ ol, env.openOrders = .ok ol → ∀ o ∈ ol, o.otype ∈ protectiveTypes →
      GCall.futuresCancelOrder o.orderId ∈ (exitFutures env ticker action).1) ∧
    ((exitFutures env ticker action).2.map TxRecord.txType = ["profit"] ∨
      (exitFutures env ticker action).2.map TxRecord.txType = ["loss"]) := by
  refine ⟨rfl, ?_, ?_, ?_⟩
  · simp only [exitFutures]
    split <;> rfl
  · intro ol hol o ho hprot
    simp only [exitFutures, List.mem_append]
    left
    rw [hol]
    exact cancel_related_covers ol o ho hprot
  · simp only [exitFutures]
    split <;> split
    all_goals first
      | (left; rfl)
      | (right; rfl)

/-- Witness for C9 at `flatExitEnv`. -/
theorem C9_witness :
    (exitFutures flatExitEnv "BTCUSDT" .SELL).1
      = cancel_related_orders flatExitEnv.openOrders ++
        [GCall.futuresPositionInformation, GCall.futuresExchangeInfo,
          GCall.futuresCreateOrder .SELL .market
            (some (format_val |flatExitEnv.positionAmt| flatExitEnv.quantityPrecision))
            none none none true false,
          GCall.futuresGetOrder flatExitEnv.exitId,
          GCall.futuresAccountTrades flatExitEnv.exitId] ∧
    (exitFutures flatExitEnv "BTCUSDT" .SELL).2.length = 1 ∧
    (∀ ol, flatExitEnv.openOrders = .ok ol → ∀ o ∈ ol, o.otype ∈ protectiveTypes →
      GCall.futuresCancelOrder o.orderId ∈ (exitFutures flatExitEnv "BTCUSDT" .SELL).1) ∧
    ((exitFutures flatExitEnv "BTCUSDT" .SELL).2.map TxRecord.txType = ["profit"] ∨
      (exitFutures flatExitEnv "BTCUSDT" .SELL).2.map TxRecord.txType = ["loss"]) :=
  C9_flattener flatExitEnv "BTCUSDT" .SELL

end BinanceTraderV2
